import Mathlib

/-!
# Verification of the sandbox control-plane agent core

A shallow embedding, in Lean 4, of the parts of the sandbox agent that the
frozen claims are about:

* the multipart-upload coordinator (`MultipartManager` in
  `src/sandbox-api/src/lib/codegen/morph.go`, `package filesystem` section):
  `InitiateUpload`, `UploadPart`, `CompleteUpload`, `AbortUpload`;
* the process supervisor's log buffers, `StopProcess` / `KillProcess`, and
  the restart-on-failure policy
  (`src/sandbox-api/src/handler/process/process.go`);
* path resolution (`GetAbsolutePath` in `src/unnamed/part_005`) together
  with the Go `path/filepath` functions it calls (`Clean`, `Join`, `Rel`);
* the stop closure returned by `WatchDirectory` / `WatchDirectoryRecursive`
  (`src/unnamed/part_001`).

Machine integers are modelled as `Nat` / `Int` with explicit `% 2^32`
(resp. `% 2^64`) where the code relies on fixed-width arithmetic (MD5).
The host filesystem is modelled as a finite map from path strings to file
entries; time stamps are opaque `Nat` parameters.
-/

set_option maxRecDepth 100000

namespace Sandbox

/-! ## Association-list helpers

Go maps (`map[string]*MultipartUpload`, `map[int]*UploadedPart`) are
modelled as association lists: `setA` is map assignment (replace the
binding if the key is present, append otherwise), `eraseA` is `delete`.
-/

def lookupA {α : Type} [DecidableEq α] {β : Type} : List (α × β) → α → Option β
  | [], _ => none
  | (k, v) :: rest, key => if k = key then some v else lookupA rest key

def setA {α : Type} [DecidableEq α] {β : Type} : List (α × β) → α → β → List (α × β)
  | [], key, val => [(key, val)]
  | (k, v) :: rest, key, val =>
      if k = key then (key, val) :: rest else (k, v) :: setA rest key val

def eraseA {α : Type} [DecidableEq α] {β : Type} (l : List (α × β)) (key : α) :
    List (α × β) :=
  l.filter (fun p => p.1 != key)

/-! ## Bytes, lowercase hex, MD5 (RFC 1321)

`crypto/md5` and `encoding/hex` from the Go standard library, as used by
`UploadPart`: the ETag is `hex.EncodeToString(hash.Sum(nil))`, the
lowercase-hex MD5 digest of the part bytes.  All 32-bit words are `Nat`s
reduced `% 2^32`.
-/

def w32 : Nat := 4294967296

def rotl32 (x s : Nat) : Nat := (((x <<< s) % w32) ||| (x >>> (32 - s)))

def not32 (x : Nat) : Nat := 4294967295 - x

/-- Per-round shift amounts of MD5. -/
def md5s : List Nat :=
  [7, 12, 17, 22, 7, 12, 17, 22, 7, 12, 17, 22, 7, 12, 17, 22,
   5, 9, 14, 20, 5, 9, 14, 20, 5, 9, 14, 20, 5, 9, 14, 20,
   4, 11, 16, 23, 4, 11, 16, 23, 4, 11, 16, 23, 4, 11, 16, 23,
   6, 10, 15, 21, 6, 10, 15, 21, 6, 10, 15, 21, 6, 10, 15, 21]

/-- The sine-derived constant table of MD5. -/
def md5K : List Nat :=
  [3614090360, 3905402710, 606105819, 3250441966,
   4118548399, 1200080426, 2821735955, 4249261313,
   1770035416, 2336552879, 4294925233, 2304563134,
   1804603682, 4254626195, 2792965006, 1236535329,
   4129170786, 3225465664, 643717713, 3921069994,
   3593408605, 38016083, 3634488961, 3889429448,
   568446438, 3275163606, 4107603335, 1163531501,
   2850285829, 4243563512, 1735328473, 2368359562,
   4294588738, 2272392833, 1839030562, 4259657740,
   2763975236, 1272893353, 4139469664, 3200236656,
   681279174, 3936430074, 3572445317, 76029189,
   3654602809, 3873151461, 530742520, 3299628645,
   4096336452, 1126891415, 2878612391, 4237533241,
   1700485571, 2399980690, 4293915773, 2240044497,
   1873313359, 4264355552, 2734768916, 1309151649,
   4149444226, 3174756917, 718787259, 3951481745]

/-- One MD5 step: `i` is the step index, `m` the 16 message words of the
current block, `(a, b, c, d)` the working registers. -/
def md5Step (m : List Nat) (st : Nat × Nat × Nat × Nat) (i : Nat) :
    Nat × Nat × Nat × Nat :=
  let a := st.1
  let b := st.2.1
  let c := st.2.2.1
  let d := st.2.2.2
  let f :=
    if i < 16 then (b &&& c) ||| (not32 b &&& d)
    else if i < 32 then (d &&& b) ||| (not32 d &&& c)
    else if i < 48 then b ^^^ c ^^^ d
    else c ^^^ (b ||| not32 d)
  let g :=
    if i < 16 then i
    else if i < 32 then (5 * i + 1) % 16
    else if i < 48 then (3 * i + 5) % 16
    else (7 * i) % 16
  let f' := (f + a + md5K.getD i 0 + m.getD g 0) % w32
  (d, (b + rotl32 f' (md5s.getD i 0)) % w32, b, c)

/-- Decode a 64-byte block into 16 little-endian 32-bit words. -/
def md5Words : List Nat → List Nat
  | b0 :: b1 :: b2 :: b3 :: rest =>
      (b0 + 256 * b1 + 65536 * b2 + 16777216 * b3) :: md5Words rest
  | _ => []

/-- Process one 64-byte block. -/
def md5Block (st : Nat × Nat × Nat × Nat) (block : List Nat) :
    Nat × Nat × Nat × Nat :=
  let m := md5Words block
  let r := (List.range 64).foldl (md5Step m) st
  ((st.1 + r.1) % w32, (st.2.1 + r.2.1) % w32,
   (st.2.2.1 + r.2.2.1) % w32, (st.2.2.2 + r.2.2.2) % w32)

/-- Little-endian byte serialization of `x` on `k` bytes. -/
def leBytes : Nat → Nat → List Nat
  | 0, _ => []
  | k + 1, x => x % 256 :: leBytes k (x / 256)

/-- MD5 padding: a 0x80 byte, zeros to 56 mod 64, and the bit length on
8 little-endian bytes (mod 2^64). -/
def md5Pad (msg : List Nat) : List Nat :=
  let zeros := (119 - msg.length % 64) % 64
  msg ++ 128 :: List.replicate zeros 0 ++ leBytes 8 ((msg.length * 8) % 18446744073709551616)

/-- Split into 64-byte blocks (fuel-driven so that it reduces in the kernel). -/
def chunks64F : Nat → List Nat → List (List Nat)
  | 0, _ => []
  | _, [] => []
  | fuel + 1, l => l.take 64 :: chunks64F fuel (l.drop 64)

def chunks64 (l : List Nat) : List (List Nat) := chunks64F l.length l

/-- The four-word MD5 digest of a byte string. -/
def md5Digest (msg : List Nat) : Nat × Nat × Nat × Nat :=
  (chunks64 (md5Pad msg)).foldl md5Block (1732584193, 4023233417, 2562383102, 271733878)

def hexDigit (n : Nat) : Char :=
  if n < 10 then Char.ofNat (48 + n) else Char.ofNat (87 + n)

def hexByte (b : Nat) : List Char := [hexDigit (b / 16 % 16), hexDigit (b % 16)]

/-- `hex.EncodeToString`: lowercase hex of a byte string. -/
def hexEncode (bs : List Nat) : String := String.mk (bs.flatMap hexByte)

/-- Lowercase-hex MD5 of a byte string: the ETag computed by `UploadPart`. -/
def md5Hex (msg : List Nat) : String :=
  let d := md5Digest msg
  hexEncode (leBytes 4 d.1 ++ leBytes 4 d.2.1 ++ leBytes 4 d.2.2.1 ++ leBytes 4 d.2.2.2)

/-! ## String prefix helper

`strings.HasPrefix` / path-containment tests, via the character lists
underlying `String`, so that they can be reasoned about by induction.
-/

def strHasPrefix (pre s : String) : Bool := List.isPrefixOf pre.data s.data

/-- `strings.Split(s, "/")` on the character list (structural, so that the
kernel can evaluate it in closed proofs). -/
def splitSlashAux : List Char → List Char → List (List Char)
  | [], cur => [cur.reverse]
  | c :: rest, cur =>
      if c = '/' then cur.reverse :: splitSlashAux rest []
      else splitSlashAux rest (c :: cur)

def splitSlash (s : String) : List String :=
  (splitSlashAux s.data []).map String.mk

/-- `strings.Join(l, sep)`. -/
def joinWith (sep : String) : List String → String
  | [] => ""
  | [x] => x
  | x :: xs => x ++ sep ++ joinWith sep xs

/-! ## Go `path/filepath` (Unix)

`Clean`, `Join`, `Dir` and `Rel` from Go's standard library, as called by
`GetAbsolutePath` (`src/unnamed/part_005`, lines 366–391) and by the
multipart manager.  `Clean` is Go's lexical cleaning: drop empty and `.`
elements, let `..` consume a preceding element, never rise above the root
of an absolute path, and keep leading `..`s of a relative path.  `Rel` is
Go's two-pointer component walk, phrased on component lists.
-/

def isAbsPath (p : String) : Bool :=
  match p.data with
  | '/' :: _ => true
  | _ => false

/-- The element-processing loop of Go's `filepath.Clean` (`acc` holds the
output elements in reverse). -/
def cleanComponents (rooted : Bool) : List String → List String → List String
  | [], acc => acc.reverse
  | c :: rest, acc =>
    if c = "" ∨ c = "." then cleanComponents rooted rest acc
    else if c = ".." then
      match acc with
      | top :: acc' =>
          if top = ".." then cleanComponents rooted rest (".." :: top :: acc')
          else cleanComponents rooted rest acc'
      | [] =>
          if rooted then cleanComponents rooted rest []
          else cleanComponents rooted rest [".."]
    else cleanComponents rooted rest (c :: acc)

/-- Go `filepath.Clean` on Unix. -/
def goClean (p : String) : String :=
  if p = "" then "."
  else
    let rooted := isAbsPath p
    let comps := cleanComponents rooted (splitSlash p) []
    let s := joinWith "/" comps
    if rooted then "/" ++ s
    else if s = "" then "." else s

/-- Go `filepath.Join` of two elements: empty elements are dropped, the
rest joined with `/` and cleaned; all-empty input gives `""`. -/
def goJoin (a b : String) : String :=
  if a = "" ∧ b = "" then ""
  else if a = "" then goClean b
  else if b = "" then goClean a
  else goClean (a ++ "/" ++ b)

/-- Go `filepath.Dir`: everything up to the final separator, cleaned
(`"."` when there is no separator). -/
def goDir (p : String) : String :=
  goClean (String.mk ((p.data.reverse.dropWhile (fun c => c ≠ '/')).reverse))

/-- Components of a cleaned path for `Rel`'s element walk: an absolute
path contributes a leading `""` element (Go's `base[b0:bi]` yields `""`
before the first separator), the root `"/"` exactly `[""]`, and the empty
base no elements at all. -/
def relComps (s : String) : List String :=
  if s = "" then [] else if s = "/" then [""] else splitSlash s

/-- Strip the longest common component prefix (Go's first-differing-element
scan). -/
def dropCommon : List String → List String → List String × List String
  | a :: as1, b :: bs1 =>
      if a = b then dropCommon as1 bs1 else (a :: as1, b :: bs1)
  | as1, bs1 => (as1, bs1)

/-- Go `filepath.Rel(base, target)` on Unix (no volume names): clean both;
equal paths give `"."`; a mix of absolute and relative is an error; strip
the common prefix; a remaining base starting with `..` is an error;
otherwise one `..` per remaining base element followed by the remaining
target elements. -/
def goRel (base targ : String) : Except String String :=
  let b := goClean base
  let t := goClean targ
  if b = t then .ok "."
  else
    let b' := if b = "." then "" else b
    if (isAbsPath b' ≠ isAbsPath t) then
      .error ("Rel: cannot make " ++ targ ++ " relative to " ++ base)
    else
      let pq := dropCommon (relComps b') (relComps t)
      if pq.1.headD "" = ".." then
        .error ("Rel: cannot make " ++ targ ++ " relative to " ++ base)
      else
        .ok (joinWith "/" (List.replicate pq.1.length ".." ++ pq.2))

/-- `Filesystem.GetAbsolutePath` (`src/unnamed/part_005`, lines 366–391):
an absolute input is used directly; a relative input is joined to the
working directory; the result is cleaned; for relative inputs only, the
result must not be `Rel`-unreachable from the root nor have a `../`
prefix relative to it. -/
def getAbsolutePath (root workingDir path : String) : Except String String :=
  let absPath := if isAbsPath path then path else goJoin workingDir path
  let absPath := goClean absPath
  if isAbsPath path then .ok absPath
  else
    match goRel root absPath with
    | .error _ => .error "path is outside of the root directory"
    | .ok rel =>
        if strHasPrefix "../" rel then .error "path is outside of the root directory"
        else .ok absPath

/-- "The `..`-normalized result lies outside the root": it is neither the
root itself nor a path beneath it.  This is the claim's notion of escape
(spec §3 Path, §7 PathEscape). -/
def outsideRoot (root p : String) : Bool := !(p == root || strHasPrefix (root ++ "/") p)

/-! ## Multipart-upload coordinator

Embedding of the `filesystem` package's `MultipartManager`
(`src/sandbox-api/src/lib/codegen/morph.go`, lines 242–589).  The host
filesystem is a finite map path → (content bytes, permission bits); the
session index (`m.uploads`) is an association list keyed by upload id.
`uuid.New()` and `time.Now()` are modelled as explicit parameters.
`json.Marshal` of the session metadata is modelled by the concrete
serialization `encodeMeta`; none of the claims inspect the metadata bytes,
only whether the metadata file is present and unchanged.
`filepath.Join(dir, id, name)` is written as the plain concatenation
`dir ++ "/" ++ id ++ "/" ++ name`, its value whenever the manager's
uploads directory is a cleaned path and the id a UUID (as produced by
`NewMultipartManager` and `uuid.New`).
-/

/-- `UploadedPart`: one stored part record. -/
structure UploadedPart where
  partNumber : Int
  etag : String
  size : Int
  uploadedAt : Nat
deriving DecidableEq, Repr

/-- `MultipartUpload`: one upload session; `parts` is the Go map
`map[int]*UploadedPart`. -/
structure MultipartUpload where
  uploadID : String
  path : String
  permissions : Nat
  initiatedAt : Nat
  parts : List (Int × UploadedPart)
deriving DecidableEq, Repr

/-- One on-disk file: content bytes and permission bits. -/
structure FileEntry where
  content : List Nat
  perm : Nat
deriving DecidableEq, Repr

/-- The manager plus the host filesystem it owns: the session index, the
files on disk and the set of existing directories. -/
structure MState where
  uploadsDir : String
  uploads : List (String × MultipartUpload)
  disk : List (String × FileEntry)
  dirs : List String
deriving DecidableEq, Repr

/-- `<uploads-root>/<session-id>` -/
def sessionDir (uploadsDir id : String) : String := uploadsDir ++ "/" ++ id

/-- `<uploads-root>/<session-id>/part-<N>` -/
def partPath (uploadsDir id : String) (n : Int) : String :=
  sessionDir uploadsDir id ++ "/part-" ++ toString n

/-- `<uploads-root>/<session-id>/metadata.json` -/
def metaPath (uploadsDir id : String) : String :=
  sessionDir uploadsDir id ++ "/metadata.json"

/-- Is `p` the directory `dir` itself or a path beneath it?  Used to model
`os.RemoveAll(dir)`. -/
def underDir (dir p : String) : Bool := p == dir || strHasPrefix (dir ++ "/") p

/-- `os.RemoveAll` on the file map: drop every file at or under `dir`. -/
def removeAllDisk (disk : List (String × FileEntry)) (dir : String) :
    List (String × FileEntry) :=
  disk.filter (fun e => !underDir dir e.1)

/-- `os.RemoveAll` on the directory set. -/
def removeAllDirs (dirs : List String) (dir : String) : List String :=
  dirs.filter (fun d => !underDir dir d)

/-- Stand-in for `json.Marshal(upload)` (the claims only care that the
metadata file exists / is unchanged, never about its bytes). -/
def encodeMeta (u : MultipartUpload) : List Nat :=
  (u.uploadID ++ "|" ++ u.path ++ "|" ++ toString u.permissions ++ "|"
    ++ toString u.initiatedAt ++ "|"
    ++ joinWith ";"
        (u.parts.map (fun kv =>
          toString kv.2.partNumber ++ ":" ++ kv.2.etag ++ ":"
            ++ toString kv.2.size ++ ":" ++ toString kv.2.uploadedAt))).data.map Char.toNat

/-- `NewMultipartManager(uploadsDir)`: empty index, uploads dir created. -/
def newManager (uploadsDir : String) : MState :=
  { uploadsDir := uploadsDir, uploads := [], disk := [], dirs := [uploadsDir] }

/-- `InitiateUpload` (morph.go 281–312).  `newID` stands for `uuid.New()`,
`now` for `time.Now()`.  `os.MkdirAll` and `saveMetadata` cannot fail in
the model, so the rollback branches are dead here. -/
def initiateUpload (st : MState) (now : Nat) (newID path : String) (permissions : Nat) :
    Except String MultipartUpload × MState :=
  let upload : MultipartUpload :=
    { uploadID := newID, path := path, permissions := permissions,
      initiatedAt := now, parts := [] }
  let sd := sessionDir st.uploadsDir newID
  (.ok upload,
    { st with
      uploads := setA st.uploads newID upload,
      dirs := sd :: st.dirs,
      disk := setA st.disk (metaPath st.uploadsDir newID) ⟨encodeMeta upload, 420⟩ })

/-- `UploadPart` (morph.go 315–366): reject an unknown id, then a part
number outside 1..10000; stream the bytes to `part-N` while hashing them
(`os.Create` creates with mode 0666 before umask); record
`{N, lowercase-hex MD5, size, now}`, replacing any previous record for
`N`; write the metadata file. -/
def uploadPart (st : MState) (now : Nat) (uploadID : String) (partNumber : Int)
    (data : List Nat) : Except String UploadedPart × MState :=
  match lookupA st.uploads uploadID with
  | none => (.error ("upload not found: " ++ uploadID), st)
  | some upload =>
    if partNumber < 1 ∨ partNumber > 10000 then
      (.error "part number must be between 1 and 10000", st)
    else
      let etag := md5Hex data
      let part : UploadedPart :=
        { partNumber := partNumber, etag := etag, size := data.length, uploadedAt := now }
      let upload' := { upload with parts := setA upload.parts partNumber part }
      let disk1 := setA st.disk (partPath st.uploadsDir uploadID partNumber) ⟨data, 438⟩
      let disk2 := setA disk1 (metaPath st.uploadsDir uploadID) ⟨encodeMeta upload', 420⟩
      (.ok part, { st with uploads := setA st.uploads uploadID upload', disk := disk2 })

/-- `AbortUpload` (morph.go 435–454): unknown id is an error; otherwise
remove the session directory (with every part file and the metadata) and
the session-index entry. -/
def abortUpload (st : MState) (uploadID : String) : Except String Unit × MState :=
  match lookupA st.uploads uploadID with
  | none => (.error ("upload not found: " ++ uploadID), st)
  | some _ =>
    let sd := sessionDir st.uploadsDir uploadID
    (.ok (),
      { st with
        uploads := eraseA st.uploads uploadID,
        disk := removeAllDisk st.disk sd,
        dirs := removeAllDirs st.dirs sd })

/-- The validation loop of `CompleteUpload` (morph.go 381–390): first
failing entry wins; `none` means every entry names a stored part with a
matching ETag. -/
def validateParts (upload : MultipartUpload) : List UploadedPart → Option String
  | [] => none
  | e :: rest =>
    match lookupA upload.parts e.partNumber with
    | none => some ("part " ++ toString e.partNumber ++ " not found")
    | some sp =>
        if sp.etag ≠ e.etag then some ("etag mismatch for part " ++ toString e.partNumber)
        else validateParts upload rest

/-- `sort.Slice(parts, less on PartNumber)`: realized as insertion sort
ascending by part number (entries with equal part numbers read the same
stored bytes, so the unspecified tie order of `sort.Slice` is
observationally irrelevant). -/
def insertAsc (e : UploadedPart) : List UploadedPart → List UploadedPart
  | [] => [e]
  | x :: xs =>
      if e.partNumber ≤ x.partNumber then e :: x :: xs else x :: insertAsc e xs

def sortParts (l : List UploadedPart) : List UploadedPart := l.foldr insertAsc []

/-- The concatenation loop of `CompleteUpload` (morph.go 411–423): open
each `part-N` named by an entry and append its bytes to the open target
file (the open file handle is modelled by the accumulator `acc`, flushed
to the file map by the caller).  A missing part file aborts the loop with
the bytes already copied. -/
def copyParts (disk : List (String × FileEntry)) (uploadsDir id : String) :
    List UploadedPart → List Nat → Except (String × List Nat) (List Nat)
  | [], acc => .ok acc
  | e :: rest, acc =>
    match lookupA disk (partPath uploadsDir id e.partNumber) with
    | none => .error ("failed to open part " ++ toString e.partNumber, acc)
    | some f => copyParts disk uploadsDir id rest (acc ++ f.content)

/-- `CompleteUpload` (morph.go 369–432): validate every supplied entry
against the stored parts, sort ascending by part number, create the parent
directory, open the target for truncating write with the session's
permission bits, concatenate the named `part-N` files in order, and on
success remove the session directory and index entry via `AbortUpload`
(whose failure would be swallowed).  Validation failures return before
anything is touched; a copy failure leaves the partially written target
but the session intact. -/
def completeUpload (st : MState) (uploadID : String) (parts : List UploadedPart) :
    Except String Unit × MState :=
  match lookupA st.uploads uploadID with
  | none => (.error ("upload not found: " ++ uploadID), st)
  | some upload =>
    match validateParts upload parts with
    | some e => (.error e, st)
    | none =>
      let sorted := sortParts parts
      let dirs1 := goDir upload.path :: st.dirs
      match copyParts st.disk st.uploadsDir uploadID sorted [] with
      | .error (msg, acc) =>
          (.error msg,
            { st with dirs := dirs1,
                      disk := setA st.disk upload.path ⟨acc, upload.permissions⟩ })
      | .ok acc =>
          let stW : MState :=
            { st with dirs := dirs1,
                      disk := setA st.disk upload.path ⟨acc, upload.permissions⟩ }
          (.ok (), (abortUpload stW uploadID).2)

/-- The bytes an entry of the parts list contributes to the final file:
the content of its `part-N` file. -/
def partBytes (disk : List (String × FileEntry)) (uploadsDir id : String)
    (e : UploadedPart) : List Nat :=
  match lookupA disk (partPath uploadsDir id e.partNumber) with
  | some f => f.content
  | none => []

/-- Executable form of "every supplied entry names a stored part whose
ETag matches". -/
def namesStored (upload : MultipartUpload) (parts : List UploadedPart) : Bool :=
  parts.all (fun e =>
    match lookupA upload.parts e.partNumber with
    | some sp => sp.etag == e.etag
    | none => false)

/-- Executable form of "every stored part of the session has its bytes on
disk". -/
def sessionFilesOk (st : MState) (id : String) (upload : MultipartUpload) : Bool :=
  upload.parts.all (fun kv => (lookupA st.disk (partPath st.uploadsDir id kv.1)).isSome)

/-! ## Process log buffers

Embedding of every write to a `ProcessInfo`'s three output buffers
(`stdout`, `stderr`, `logs` — the combined buffer) in
`src/sandbox-api/src/handler/process/process.go`.  The reader goroutines
and the wait goroutine serialize these writes (the reads under
`logLock`, the notices on the single wait/stop paths), so a process's
buffer history is a sequence of the following events.
-/

/-- One buffer write in the life of a process record. -/
inductive PEvent where
  /-- A chunk read from the stdout pipe: appended to `stdout` and `logs`
  (process.go 208–210 and 418–420). -/
  | stdoutData (s : String)
  /-- A chunk read from the stderr pipe: appended to `stderr` and `logs`
  (process.go 234–236 and 444–446). -/
  | stderrData (s : String)
  /-- The restart notice `\n[Process failed with exit code N. Attempting
  restart K/M...]\n`: appended to `stdout` and `logs` (process.go 291–292
  and 502–503). -/
  | restartNotice (s : String)
  /-- The failed-restart notice `\n[Failed to restart process: ...]\n`:
  appended to `stdout` and `logs` (process.go 316–317 and 527–528). -/
  | restartErrNotice (s : String)
  /-- `StopProcess`'s termination notice: appended to `stdout` only
  (process.go 635). -/
  | stopNotice
  /-- `KillProcess`'s termination notice: appended to `stdout` only
  (process.go 676). -/
  | killNotice
deriving DecidableEq, Repr

def stopMsg : String := "\n[Process is being gracefully terminated]\n"

def killMsg : String := "\n[Process is being forcefully killed]\n"

/-- The three output buffers of a process record. -/
structure Buffers where
  stdout : String
  stderr : String
  logs : String
deriving DecidableEq, Repr

/-- Apply one buffer write, exactly as the corresponding source site
does. -/
def applyEvent (b : Buffers) : PEvent → Buffers
  | .stdoutData s => { b with stdout := b.stdout ++ s, logs := b.logs ++ s }
  | .stderrData s => { b with stderr := b.stderr ++ s, logs := b.logs ++ s }
  | .restartNotice s => { b with stdout := b.stdout ++ s, logs := b.logs ++ s }
  | .restartErrNotice s => { b with stdout := b.stdout ++ s, logs := b.logs ++ s }
  | .stopNotice => { b with stdout := b.stdout ++ stopMsg }
  | .killNotice => { b with stdout := b.stdout ++ killMsg }

/-- The buffers after a sequence of writes, starting from the fresh empty
builders of `StartProcessWithName` (process.go 169–171). -/
def runEvents (tr : List PEvent) : Buffers :=
  tr.foldl applyEvent ⟨"", "", ""⟩

/-- What an event contributes to the combined (`logs`) buffer. -/
def combinedPart : PEvent → String
  | .stdoutData s => s
  | .stderrData s => s
  | .restartNotice s => s
  | .restartErrNotice s => s
  | .stopNotice => ""
  | .killNotice => ""

/-- What an event contributes to the `stdout` buffer. -/
def stdoutPart : PEvent → String
  | .stdoutData s => s
  | .stderrData _ => ""
  | .restartNotice s => s
  | .restartErrNotice s => s
  | .stopNotice => stopMsg
  | .killNotice => killMsg

/-- What an event contributes to the `stderr` buffer. -/
def stderrPart : PEvent → String
  | .stderrData s => s
  | _ => ""

/-! ## Stop / Kill on a process record

`StopProcess` (process.go 612–654) and `KillProcess` (process.go 657–698),
on the fields they consult.  The record was found by
`GetProcessByIdentifier` (the not-found path is the same for both and not
at issue in the claims).  `syscall.Kill(target, sig)` is modelled by an
oracle `sig : Int → Option String` giving, for each target pid (negative
for the process group), `none` for success or the Go error string.  For a
process that has already exited and been reaped, the OS refuses both the
group and the pid signal with `ESRCH`, whose Go error string is
`"no such process"`.
-/

inductive PStatus where
  | running
  | completed
  | failed
  | stopped
  | killed
deriving DecidableEq, Repr

def PStatus.isTerminal : PStatus → Bool
  | .running => false
  | _ => true

/-- The `ProcessInfo` fields consulted by Stop/Kill. -/
structure ProcRec where
  status : PStatus
  processPid : Int
deriving DecidableEq, Repr

/-- `StopProcess` after the identifier lookup: refuse a non-running
record, refuse a zero OS pid; otherwise SIGTERM the group, falling back to
the leader; an error string other than `"os: process already finished"`
fails the call; on success (or a tolerated error) set status `stopped`. -/
def stopProcess (p : ProcRec) (sig : Int → Option String) : Except String ProcRec :=
  if p.status ≠ .running then .error "process is not running"
  else if p.processPid = 0 then .error "process has no OS process"
  else
    match sig (-p.processPid) with
    | none => .ok { p with status := .stopped }
    | some _ =>
      match sig p.processPid with
      | none => .ok { p with status := .stopped }
      | some e =>
          if e ≠ "os: process already finished" then
            .error ("failed to send SIGTERM: " ++ e)
          else .ok { p with status := .stopped }

/-- `KillProcess` after the identifier lookup: no status check; refuse a
zero OS pid; otherwise SIGKILL the group, falling back to the leader, with
the same tolerated error string; on success set status `killed`. -/
def killProcess (p : ProcRec) (sig : Int → Option String) : Except String ProcRec :=
  if p.processPid = 0 then .error "process has no OS process"
  else
    match sig (-p.processPid) with
    | none => .ok { p with status := .killed }
    | some _ =>
      match sig p.processPid with
      | none => .ok { p with status := .killed }
      | some e =>
          if e ≠ "os: process already finished" then
            .error ("failed to kill process: " ++ e)
          else .ok { p with status := .killed }

/-! ## Restart policy state machine

The lifecycle of one process record's `(Status, RestartOnFailure,
MaxRestarts, RestartCount)` fields.  `spawn` is `StartProcessWithName`
(process.go 163–166: a requested max above 25 is clamped to 25;
process.go 181: the count starts at 0).  The only transition that touches
`RestartCount` is the restart branch (process.go 286 and 305, likewise
497 and 516 in `restartProcess`): it fires only when the record is
`failed`, restart is enabled and `RestartCount < MaxRestarts`, and
increments the count by one.  `MaxRestarts` is never written after spawn.
-/

structure RestartState where
  status : PStatus
  restartOnFailure : Bool
  maxRestarts : Int
  restartCount : Int
deriving DecidableEq, Repr

/-- `StartProcessWithName`'s record initialization (process.go 163–188). -/
def spawn (restartOnFailure : Bool) (maxRestarts : Int) : RestartState :=
  { status := .running,
    restartOnFailure := restartOnFailure,
    maxRestarts := if maxRestarts > 25 then 25 else maxRestarts,
    restartCount := 0 }

/-- Every write to the record's lifecycle fields after spawn. -/
inductive RStep : RestartState → RestartState → Prop
  /-- The wait goroutine on a clean exit (process.go 275–278). -/
  | waitCompleted (s : RestartState) (h : s.status = .running) :
      RStep s { s with status := .completed }
  /-- The wait goroutine on a failing exit when the status was not already
  stopped/killed (process.go 266–274). -/
  | waitFailed (s : RestartState) (h : s.status = .running) :
      RStep s { s with status := .failed }
  /-- `StopProcess` (process.go 652). -/
  | stop (s : RestartState) (h : s.status = .running) :
      RStep s { s with status := .stopped }
  /-- `KillProcess` (process.go 696; it does not check the status). -/
  | kill (s : RestartState) :
      RStep s { s with status := .killed }
  /-- The restart branch (process.go 286–312 / 497–523): guard
  `failed ∧ restartOnFailure ∧ restartCount < maxRestarts`, increment the
  count, respawn as running. -/
  | restart (s : RestartState) (hf : s.status = .failed)
      (hr : s.restartOnFailure = true) (hc : s.restartCount < s.maxRestarts) :
      RStep s { s with status := .running, restartCount := s.restartCount + 1 }

/-- States reachable over the record's lifetime. -/
def RReachable (s₀ s : RestartState) : Prop := Relation.ReflTransGen RStep s₀ s

/-! ## Watch-subscription stop closure

The `stop` closure returned by `WatchDirectory` (`src/unnamed/part_001`,
lines 160–164) and `WatchDirectoryRecursive` (lines 225–229); the two are
textually identical: `close(stopChan); watcher.Close()`.  In Go, `close`
on an already-closed channel panics ("close of closed channel");
fsnotify's `Watcher.Close` is internally guarded and safe to repeat (its
error is discarded anyway).
-/

structure WatchState where
  stopChanClosed : Bool
  watcherClosed : Bool
deriving DecidableEq, Repr

/-- The watcher state right after a successful subscribe. -/
def watchStart : WatchState := ⟨false, false⟩

/-- One call of the stop closure: `close(stopChan)` panics if the channel
is already closed, otherwise both the channel and the OS watcher end up
closed. -/
def watchStop (w : WatchState) : Except String WatchState :=
  if w.stopChanClosed then .error "close of closed channel"
  else .ok { stopChanClosed := true, watcherClosed := true }

/-! ## Remaining small definitions used by the theorems -/

/-- Concatenation of a list of strings (cons-structural). -/
def strJoin : List String → String
  | [] => ""
  | x :: xs => x ++ strJoin xs

/-- The length a stop/kill termination notice adds to `stdout` without
reaching the combined buffer. -/
def terminationLen : PEvent → Nat
  | .stopNotice => stopMsg.length
  | .killNotice => killMsg.length
  | _ => 0

/-! Concrete states used by the witness theorems: a fresh manager, one
session at `/tmp/x.dat`, parts 1 = `Hi` and 2 = `!`. -/

def wSt0 : MState := newManager "/up"

def wInit : MState := (initiateUpload wSt0 0 "sid" "/tmp/x.dat" 420).2

def wUp1 : MState := (uploadPart wInit 1 "sid" 1 [72, 105]).2

def wUp2 : MState := (uploadPart wUp1 2 "sid" 2 [33]).2

/-- The session record stored in `wUp2`. -/
def wUpload : MultipartUpload :=
  { uploadID := "sid", path := "/tmp/x.dat", permissions := 420, initiatedAt := 0,
    parts := [(1, ⟨1, md5Hex [72, 105], 2, 1⟩), (2, ⟨2, md5Hex [33], 1, 2⟩)] }

/-- A correct completion list for `wUp2`. -/
def wList : List UploadedPart :=
  [⟨1, md5Hex [72, 105], 2, 7⟩, ⟨2, md5Hex [33], 1, 7⟩]

/-- The freshly initiated session record (no parts yet). -/
def wUpload0 : MultipartUpload :=
  { uploadID := "sid", path := "/tmp/x.dat", permissions := 420, initiatedAt := 0,
    parts := [] }

/-- A completion list naming only part 1 of `wUp2` — a strict subset. -/
def wListSub : List UploadedPart := [⟨1, md5Hex [72, 105], 2, 7⟩]

/-- A completion list with a wrong ETag for part 2. -/
def wListBad : List UploadedPart := [⟨2, "deadbeef", 1, 7⟩]

/-- Re-upload of part 1 (bytes `\n`) over `wUp1`. -/
def wRe2 : MState := (uploadPart wUp1 9 "sid" 1 [10]).2

/-- The session record stored in `wRe2`: part 1 replaced wholesale. -/
def wUploadRe : MultipartUpload :=
  { uploadID := "sid", path := "/tmp/x.dat", permissions := 420, initiatedAt := 0,
    parts := [(1, ⟨1, md5Hex [10], 1, 9⟩)] }

/-- A completion list for `wRe2` naming the re-uploaded part. -/
def wListRe : List UploadedPart := [⟨1, md5Hex [10], 1, 5⟩]

/-! # Theorems

General-purpose lemmas first, then one theorem per claim (with its
witness or counterexample).
-/

/-! ## Association-list lemmas -/

theorem lookupA_setA_same {α : Type} [DecidableEq α] {β : Type}
    (l : List (α × β)) (k : α) (v : β) : lookupA (setA l k v) k = some v := by
  induction l with
  | nil => simp [setA, lookupA]
  | cons hd tl ih =>
      obtain ⟨k', v'⟩ := hd
      by_cases h : k' = k
      · simp [setA, h, lookupA]
      · simp [setA, h, lookupA, ih]

theorem lookupA_setA_other {α : Type} [DecidableEq α] {β : Type}
    (l : List (α × β)) (k k' : α) (v : β) (hne : k ≠ k') :
    lookupA (setA l k v) k' = lookupA l k' := by
  induction l with
  | nil => simp [setA, lookupA, hne]
  | cons hd tl ih =>
      obtain ⟨k0, v0⟩ := hd
      by_cases h : k0 = k
      · simp [setA, h, lookupA, hne]
      · simp [setA, h, lookupA, ih]

theorem lookupA_mem {α : Type} [DecidableEq α] {β : Type}
    {l : List (α × β)} {k : α} {v : β} (h : lookupA l k = some v) : (k, v) ∈ l := by
  induction l with
  | nil => simp [lookupA] at h
  | cons hd tl ih =>
      obtain ⟨k', v'⟩ := hd
      by_cases hk : k' = k
      · simp [lookupA, hk] at h
        subst hk h
        exact List.mem_cons_self _ _
      · simp [lookupA, hk] at h
        exact List.mem_cons_of_mem _ (ih h)

theorem lookupA_eraseA_self {α : Type} [DecidableEq α] {β : Type}
    (l : List (α × β)) (k : α) : lookupA (eraseA l k) k = none := by
  induction l with
  | nil => rfl
  | cons hd tl ih =>
      obtain ⟨k', v'⟩ := hd
      by_cases h : k' = k
      · rw [show eraseA ((k', v') :: tl) k = eraseA tl k from by
          simp [eraseA, List.filter_cons, h]]
        exact ih
      · rw [show eraseA ((k', v') :: tl) k = (k', v') :: eraseA tl k from by
          simp [eraseA, List.filter_cons, h]]
        simpa [lookupA, h] using ih

/-! ## String-prefix lemmas -/

theorem strHasPrefix_append (pre t : String) : strHasPrefix pre (pre ++ t) = true := by
  have h : (pre ++ t).data = pre.data ++ t.data := rfl
  simp only [strHasPrefix, h]
  exact List.isPrefixOf_iff_prefix.mpr (List.prefix_append _ _)

theorem string_ne_of_data_ne {a b : String} (h : a.data ≠ b.data) : a ≠ b := by
  intro he; exact h (congrArg String.data he)

/-- `part-N` and `metadata.json` are distinct members of the session
directory. -/
theorem partPath_ne_metaPath (dir id : String) (n : Int) :
    partPath dir id n ≠ metaPath dir id := by
  apply string_ne_of_data_ne
  have hp : (partPath dir id n).data
      = (sessionDir dir id).data ++ ('/' :: 'p' :: 'a' :: 'r' :: 't' :: '-' :: (toString n).data) := by
    show ((sessionDir dir id ++ "/part-") ++ toString n).data = _
    have h1 : ((sessionDir dir id ++ "/part-") ++ toString n).data
        = ((sessionDir dir id).data ++ "/part-".data) ++ (toString n).data := rfl
    rw [h1, List.append_assoc]
    rfl
  have hm : (metaPath dir id).data
      = (sessionDir dir id).data ++ ('/' :: 'm' :: 'e' :: 't' :: 'a' :: 'd' :: 'a' :: 't' :: 'a' :: '.' :: 'j' :: 's' :: 'o' :: 'n' :: []) := rfl
  rw [hp, hm]
  intro h
  have := List.append_cancel_left h
  simp at this

/-- The `part-N` file lies beneath the session directory. -/
theorem partPath_under (dir id : String) (n : Int) :
    underDir (sessionDir dir id) (partPath dir id n) = true := by
  have h : partPath dir id n = (sessionDir dir id ++ "/") ++ ("part-" ++ toString n) := by
    show (sessionDir dir id ++ "/part-") ++ toString n = _
    rw [String.append_assoc, String.append_assoc]
    rfl
  simp only [underDir, h, strHasPrefix_append, Bool.or_true]

/-! ## Claim C4 — path resolution (code bug)

The spec requires a path-escape error exactly when the `..`-normalized
result of a relative input lies outside the root.  `GetAbsolutePath`
checks `strings.HasPrefix(rel, "../")`, which misses a `Rel` result of
exactly `..`: the relative input `..` from a working directory equal to
the root resolves to the root's parent and is returned without error,
although the code's own comment says it verifies the path is within the
root to prevent traversal.
-/

/-- C4: counterexample run — with root and working directory `/root`, the
relative input `..` resolves to `/`, which lies outside the root, yet
`GetAbsolutePath` returns it without a path-escape error. -/
theorem getAbsolutePath_dotdot_escapes_root :
    getAbsolutePath "/root" "/root" ".." = .ok "/" ∧ outsideRoot "/root" "/" = true :=
  ⟨rfl, rfl⟩

/-! ## Claim C9 — watch stop closure (corrected)

The stop closure is `close(stopChan); watcher.Close()` with no guard, so
the second call panics on the already-closed channel: it is not
idempotent.
-/

/-- C9 counterexample: after one (successful) stop, a second call to the
stop closure faults instead of being a no-op. -/
theorem watchStop_second_call_faults :
    watchStop watchStart = .ok ⟨true, true⟩ ∧
    watchStop ⟨true, true⟩ = .error "close of closed channel" :=
  ⟨rfl, rfl⟩

/-- C9 (amended): the first call of the stop closure closes the stop
channel and the OS watcher; any further call panics with
"close of closed channel" rather than closing anything again. -/
theorem watchStop_first_closes_then_faults (w : WatchState)
    (h : w.stopChanClosed = false) :
    watchStop w = .ok ⟨true, true⟩ ∧
    ∀ w', watchStop w = .ok w' → watchStop w' = .error "close of closed channel" := by
  constructor
  · simp [watchStop, h]
  · intro w' hw
    simp [watchStop, h] at hw
    simp [watchStop, ← hw]

/-- C9 witness: the amended theorem at the fresh subscription state. -/
theorem watchStop_first_closes_then_faults_witness :
    watchStop watchStart = .ok ⟨true, true⟩ ∧
    ∀ w', watchStop watchStart = .ok w' →
      watchStop w' = .error "close of closed channel" :=
  watchStop_first_closes_then_faults watchStart rfl

/-! ## Claim C2 — combined log buffer (corrected)

During pipe reads and restart notices the combined buffer is exactly the
arrival-order merge of what goes into `stdout` and `stderr`.  But
`StopProcess` and `KillProcess` append their termination notice to the
`stdout` buffer only (process.go 635 / 676), never to `logs`, so after a
Stop or Kill the lengths no longer add up.
-/

theorem applyEvent_parts (b : Buffers) (e : PEvent) :
    applyEvent b e =
      ⟨b.stdout ++ stdoutPart e, b.stderr ++ stderrPart e, b.logs ++ combinedPart e⟩ := by
  cases e <;> simp [applyEvent, stdoutPart, stderrPart, combinedPart]

theorem foldl_applyEvent_parts (tr : List PEvent) (b : Buffers) :
    tr.foldl applyEvent b =
      ⟨b.stdout ++ strJoin (tr.map stdoutPart),
       b.stderr ++ strJoin (tr.map stderrPart),
       b.logs ++ strJoin (tr.map combinedPart)⟩ := by
  induction tr generalizing b with
  | nil => simp [strJoin]
  | cons e tr ih =>
      rw [List.foldl_cons, ih, applyEvent_parts]
      simp [strJoin, String.append_assoc]

theorem strJoin_length (l : List String) :
    (strJoin l).length = (l.map String.length).sum := by
  induction l with
  | nil => rfl
  | cons x xs ih => simp [strJoin, String.length_append, ih]

theorem event_length_split (e : PEvent) :
    (stdoutPart e).length + (stderrPart e).length
      = (combinedPart e).length + terminationLen e := by
  cases e <;> simp [stdoutPart, stderrPart, combinedPart, terminationLen]

theorem sum_parts_length (tr : List PEvent) :
    (tr.map (String.length ∘ stdoutPart)).sum + (tr.map (String.length ∘ stderrPart)).sum
      = (tr.map (String.length ∘ combinedPart)).sum + (tr.map terminationLen).sum := by
  induction tr with
  | nil => rfl
  | cons e tr ih =>
      simp only [List.map_cons, List.sum_cons, Function.comp]
      have h := event_length_split e
      omega

/-- C2 counterexample: the trace "read `a` from stdout, then Stop" — a
state every stopped process passes through — has combined buffer `a` but
stdout buffer `a` plus the termination notice, so
`|logs| ≠ |stdout| + |stderr|` and the combined buffer is not the merge of
the two streams. -/
theorem combined_buffer_invariant_fails_after_stop :
    ¬ ((runEvents [.stdoutData "a", .stopNotice]).logs.length
        = (runEvents [.stdoutData "a", .stopNotice]).stdout.length
          + (runEvents [.stdoutData "a", .stopNotice]).stderr.length) := by
  decide

/-- C2 (amended): at every point of a record's lifetime the combined
buffer is the arrival-order concatenation of the per-event combined
contributions (pipe data and restart notices); the stdout and stderr
buffers are likewise their per-event concatenations; and the buffer
lengths satisfy `|stdout| + |stderr| = |logs| + Σ termination-notice
lengths`, the termination notices of Stop/Kill being written to `stdout`
only.  In particular the claimed equality `|logs| = |stdout| + |stderr|`
holds exactly while no Stop/Kill notice has been written. -/
theorem combined_buffer_merge_with_termination_notices (tr : List PEvent) :
    (runEvents tr).logs = strJoin (tr.map combinedPart) ∧
    (runEvents tr).stdout = strJoin (tr.map stdoutPart) ∧
    (runEvents tr).stderr = strJoin (tr.map stderrPart) ∧
    (runEvents tr).stdout.length + (runEvents tr).stderr.length
      = (runEvents tr).logs.length + (tr.map terminationLen).sum := by
  have h := foldl_applyEvent_parts tr ⟨"", "", ""⟩
  have hrun : runEvents tr = tr.foldl applyEvent ⟨"", "", ""⟩ := rfl
  rw [hrun, h]
  refine ⟨by simp, by simp, by simp, ?_⟩
  simp only [String.length_append]
  rw [strJoin_length, strJoin_length, strJoin_length]
  rw [List.map_map, List.map_map, List.map_map]
  have h2 := sum_parts_length tr
  have h0 : ("" : String).length = 0 := rfl
  omega

/-! ## Claim C3 — Stop/Kill on finished processes (corrected)

`StopProcess` explicitly refuses any record whose status is not
`running`, and `KillProcess`, which skips the status check, tolerates only
the error string `"os: process already finished"` (the message of
`os.Process` methods) while the raw `syscall.Kill` it issues reports
`ESRCH` — `"no such process"` — for an exited process.  Neither call is
an idempotent success on a terminal record.
-/

/-- C3 counterexample: stopping an already-completed process returns an
error instead of succeeding idempotently. -/
theorem stopProcess_on_completed_errors :
    stopProcess ⟨.completed, 1234⟩ (fun _ => some "no such process")
      = .error "process is not running" := rfl

/-- C3 (amended): for a record whose status is terminal, Stop always
fails with the "is not running" error; Kill ignores the status and
signals anyway, and when the OS reports the already-exited process with
"no such process" — a string different from the tolerated
"os: process already finished" — Kill fails too. -/
theorem stop_kill_on_terminal_record (p : ProcRec) (sig : Int → Option String)
    (hterm : p.status.isTerminal = true) (hpid : p.processPid ≠ 0)
    (hsig : ∀ t, sig t = some "no such process") :
    stopProcess p sig = .error "process is not running" ∧
    killProcess p sig = .error ("failed to kill process: " ++ "no such process") := by
  constructor
  · have hne : p.status ≠ .running := by
      intro h; rw [h] at hterm; exact Bool.noConfusion hterm
    simp [stopProcess, hne]
  · simp [killProcess, hpid, hsig]

/-- C3 witness: the amended theorem at a completed record with pid 1234
whose OS signals report "no such process". -/
theorem stop_kill_on_terminal_record_witness :
    stopProcess ⟨.completed, 1234⟩ (fun _ => some "no such process")
        = .error "process is not running" ∧
    killProcess ⟨.completed, 1234⟩ (fun _ => some "no such process")
        = .error ("failed to kill process: " ++ "no such process") :=
  stop_kill_on_terminal_record ⟨.completed, 1234⟩ _ rfl (by decide) (fun _ => rfl)

/-! ## Claim C8 — restart bounds (corrected)

The spawn path clamps a requested max-restarts above 25 down to 25 and a
restart fires only while `RestartCount < MaxRestarts`, so for any
non-negative request the count never exceeds the maximum and the maximum
never exceeds 25.  There is however no lower clamp: a negative requested
max-restarts is stored as-is, and the fresh record's restart count 0
already exceeds it.
-/

/-- C8 counterexample: spawning with requested max-restarts −1 (accepted
unvalidated by the API) yields a reachable record whose restart count 0
exceeds its max-restarts −1. -/
theorem restartCount_exceeds_negative_max :
    RReachable (spawn true (-1)) (spawn true (-1)) ∧
    ¬ ((spawn true (-1)).restartCount ≤ (spawn true (-1)).maxRestarts) :=
  ⟨Relation.ReflTransGen.refl, by decide⟩

theorem rstep_max_eq {a b : RestartState} (st : RStep a b) :
    b.maxRestarts = a.maxRestarts := by
  cases st <;> rfl

theorem rstep_count_le {a b : RestartState} (st : RStep a b)
    (h : a.restartCount ≤ max a.maxRestarts 0) :
    b.restartCount ≤ max b.maxRestarts 0 := by
  cases st with
  | waitCompleted _ => exact h
  | waitFailed _ => exact h
  | stop _ => exact h
  | kill => exact h
  | restart hf hr hcnt =>
      show a.restartCount + 1 ≤ max a.maxRestarts 0
      omega

theorem rreachable_inv (r : Bool) (m : Int) (s : RestartState)
    (h : RReachable (spawn r m) s) :
    s.maxRestarts = (if m > 25 then 25 else m) ∧
    s.restartCount ≤ max s.maxRestarts 0 := by
  induction h with
  | refl => exact ⟨rfl, le_max_right _ _⟩
  | tail _ step ih =>
      exact ⟨(rstep_max_eq step).trans ih.1, rstep_count_le step ih.2⟩

/-- C8 (amended): over every reachable state of a spawned record the
stored max-restarts never exceeds 25 (a request above 25 is clamped at
spawn), and whenever the requested max-restarts is non-negative the
restart count never exceeds it; a restart step is only enabled while
`restartCount < maxRestarts`.  (For a negative request the fresh count 0
already exceeds the stored maximum.) -/
theorem restart_bounds (r : Bool) (m : Int) (s : RestartState)
    (h : RReachable (spawn r m) s) :
    s.maxRestarts ≤ 25 ∧ (0 ≤ m → s.restartCount ≤ s.maxRestarts) := by
  obtain ⟨hm, hc⟩ := rreachable_inv r m s h
  constructor
  · rw [hm]; split <;> omega
  · intro h0
    have : 0 ≤ s.maxRestarts := by rw [hm]; split <;> omega
    omega

/-- C8 witness: the amended theorem at a spawn requesting 30 restarts. -/
theorem restart_bounds_witness :
    (spawn true 30).maxRestarts ≤ 25 ∧
    (0 ≤ (30 : Int) → (spawn true 30).restartCount ≤ (spawn true 30).maxRestarts) :=
  restart_bounds true 30 (spawn true 30) Relation.ReflTransGen.refl

/-! ## Multipart-coordinator lemmas -/

theorem metaPath_under (dir id : String) :
    underDir (sessionDir dir id) (metaPath dir id) = true := by
  have h : metaPath dir id = (sessionDir dir id ++ "/") ++ "metadata.json" := by
    show sessionDir dir id ++ "/metadata.json" = _
    rw [String.append_assoc]
    rfl
  simp only [underDir, h, strHasPrefix_append, Bool.or_true]

/-- Unfolding of `namesStored`. -/
theorem namesStored_spec {upload : MultipartUpload} {list : List UploadedPart}
    (h : namesStored upload list = true) :
    ∀ e ∈ list, ∃ sp, lookupA upload.parts e.partNumber = some sp ∧ sp.etag = e.etag := by
  intro e he
  have := List.all_eq_true.mp h e he
  revert this
  cases hl : lookupA upload.parts e.partNumber with
  | none => intro h'; exact absurd h' (by simp)
  | some sp => intro h'; exact ⟨sp, rfl, by simpa using h'⟩

/-- Unfolding of `sessionFilesOk`. -/
theorem sessionFilesOk_spec {st : MState} {id : String} {upload : MultipartUpload}
    (h : sessionFilesOk st id upload = true) :
    ∀ n p, lookupA upload.parts n = some p →
      (lookupA st.disk (partPath st.uploadsDir id n)).isSome = true := by
  intro n p hl
  have hmem := lookupA_mem hl
  exact List.all_eq_true.mp h (n, p) hmem

/-- A list every entry of which names a stored part with a matching ETag
passes the validation loop. -/
theorem validateParts_none_of_namesStored {upload : MultipartUpload}
    {list : List UploadedPart} (h : namesStored upload list = true) :
    validateParts upload list = none := by
  induction list with
  | nil => rfl
  | cons e rest ih =>
      have hall := List.all_eq_true.mp h
      have he := hall e (List.mem_cons_self _ _)
      have hrest : namesStored upload rest = true := by
        apply List.all_eq_true.mpr
        intro x hx
        exact hall x (List.mem_cons_of_mem _ hx)
      revert he
      cases hl : lookupA upload.parts e.partNumber with
      | none => intro h'; exact absurd h' (by simp)
      | some sp =>
          intro h'
          have heq : sp.etag = e.etag := by simpa using h'
          simp [validateParts, hl, heq, ih hrest]

/-- A list containing an entry that names no stored part, or one whose
ETag mismatches, fails the validation loop. -/
theorem validateParts_some_of_bad {upload : MultipartUpload}
    {list : List UploadedPart}
    (h : ∃ e ∈ list, ∀ sp, lookupA upload.parts e.partNumber = some sp → sp.etag ≠ e.etag) :
    ∃ msg, validateParts upload list = some msg := by
  induction list with
  | nil => obtain ⟨e, he, _⟩ := h; exact absurd he (by simp)
  | cons x rest ih =>
      obtain ⟨e, he, hbad⟩ := h
      cases hl : lookupA upload.parts x.partNumber with
      | none =>
          exact ⟨"part " ++ toString x.partNumber ++ " not found",
            by simp [validateParts, hl]⟩
      | some sp =>
          by_cases hx : sp.etag = x.etag
          · rcases List.mem_cons.mp he with rfl | hmem
            · exact absurd hx (hbad sp hl)
            · obtain ⟨msg, hmsg⟩ := ih ⟨e, hmem, hbad⟩
              exact ⟨msg, by simp [validateParts, hl, hx, hmsg]⟩
          · exact ⟨"etag mismatch for part " ++ toString x.partNumber,
              by simp [validateParts, hl, hx]⟩

theorem insertAsc_perm (e : UploadedPart) (l : List UploadedPart) :
    List.Perm (insertAsc e l) (e :: l) := by
  induction l with
  | nil => exact List.Perm.refl _
  | cons x xs ih =>
      by_cases h : e.partNumber ≤ x.partNumber
      · simp [insertAsc, h]
      · simp only [insertAsc, h, if_false]
        exact (List.Perm.cons x ih).trans (List.Perm.swap e x xs)

theorem sortParts_perm (l : List UploadedPart) : List.Perm (sortParts l) l := by
  induction l with
  | nil => exact List.Perm.refl _
  | cons x xs ih =>
      exact (insertAsc_perm x (sortParts xs)).trans (List.Perm.cons x ih)

theorem insertAsc_sorted (e : UploadedPart) (l : List UploadedPart)
    (h : List.Pairwise (fun a b => a.partNumber ≤ b.partNumber) l) :
    List.Pairwise (fun a b => a.partNumber ≤ b.partNumber) (insertAsc e l) := by
  induction l with
  | nil => simp [insertAsc]
  | cons x xs ih =>
      rcases List.pairwise_cons.mp h with ⟨hx, hxs⟩
      by_cases hle : e.partNumber ≤ x.partNumber
      · simp only [insertAsc, hle, if_true]
        refine List.pairwise_cons.mpr ⟨?_, h⟩
        intro y hy
        rcases List.mem_cons.mp hy with rfl | hmem
        · exact hle
        · exact le_trans hle (hx y hmem)
      · simp only [insertAsc, hle, if_false]
        refine List.pairwise_cons.mpr ⟨?_, ih hxs⟩
        intro y hy
        have := (insertAsc_perm e xs).mem_iff.mp hy
        rcases List.mem_cons.mp this with rfl | hmem
        · omega
        · exact hx y hmem

theorem sortParts_sorted (l : List UploadedPart) :
    List.Pairwise (fun a b => a.partNumber ≤ b.partNumber) (sortParts l) := by
  induction l with
  | nil => simp [sortParts]
  | cons x xs ih => exact insertAsc_sorted x (sortParts xs) ih

/-- The concatenation loop succeeds on a list all of whose entries have a
part file, producing the concatenation of their bytes. -/
theorem copyParts_ok (disk : List (String × FileEntry)) (dir id : String)
    (l : List UploadedPart)
    (h : ∀ e ∈ l, (lookupA disk (partPath dir id e.partNumber)).isSome = true) :
    ∀ acc, copyParts disk dir id l acc = .ok (acc ++ l.flatMap (partBytes disk dir id)) := by
  induction l with
  | nil => intro acc; simp [copyParts]
  | cons e rest ih =>
      intro acc
      have he := h e (List.mem_cons_self _ _)
      cases hl : lookupA disk (partPath dir id e.partNumber) with
      | none => rw [hl] at he; exact absurd he (by simp)
      | some f =>
          have hrest : ∀ x ∈ rest, (lookupA disk (partPath dir id x.partNumber)).isSome = true :=
            fun x hx => h x (List.mem_cons_of_mem _ hx)
          simp only [copyParts, hl, ih hrest (acc ++ f.content)]
          simp [partBytes, hl, List.flatMap_cons, List.append_assoc]

theorem lookupA_removeAllDisk_keep (disk : List (String × FileEntry)) (sd p : String)
    (h : underDir sd p = false) :
    lookupA (removeAllDisk disk sd) p = lookupA disk p := by
  induction disk with
  | nil => rfl
  | cons hd tl ih =>
      obtain ⟨q, f⟩ := hd
      by_cases hq : underDir sd q = true
      · rw [show removeAllDisk ((q, f) :: tl) sd = removeAllDisk tl sd from by
          simp [removeAllDisk, List.filter_cons, hq]]
        have hne : q ≠ p := fun he => by rw [he] at hq; rw [hq] at h; exact Bool.noConfusion h
        rw [ih, lookupA, if_neg hne]
      · rw [show removeAllDisk ((q, f) :: tl) sd = (q, f) :: removeAllDisk tl sd from by
          simp [removeAllDisk, List.filter_cons, hq]]
        by_cases hqp : q = p
        · simp [lookupA, hqp]
        · simp [lookupA, hqp, ih]

theorem lookupA_removeAllDisk_under (disk : List (String × FileEntry)) (sd p : String)
    (h : underDir sd p = true) :
    lookupA (removeAllDisk disk sd) p = none := by
  induction disk with
  | nil => rfl
  | cons hd tl ih =>
      obtain ⟨q, f⟩ := hd
      by_cases hq : underDir sd q = true
      · rw [show removeAllDisk ((q, f) :: tl) sd = removeAllDisk tl sd from by
          simp [removeAllDisk, List.filter_cons, hq]]
        exact ih
      · rw [show removeAllDisk ((q, f) :: tl) sd = (q, f) :: removeAllDisk tl sd from by
          simp [removeAllDisk, List.filter_cons, hq]]
        have hne : q ≠ p := fun he => by rw [he] at hq; exact hq h
        rw [lookupA, if_neg hne]
        exact ih

theorem not_mem_removeAllDirs_self (dirs : List String) (sd : String) :
    sd ∉ removeAllDirs dirs sd := by
  intro h
  have := List.of_mem_filter h
  simp [underDir] at this

/-- The success path of `CompleteUpload`, shared by the completion claims:
for a known session whose stored parts have their files on disk, a parts
list every entry of which names a stored part with matching ETag, and a
target path that does not lie inside the session directory, completion
succeeds, the target file holds the concatenation of the named parts in
the sorted order with the session's permission bits, and the session
directory (every part file and the metadata) and the index entry are
gone. -/
theorem complete_ok (st : MState) (id : String) (upload : MultipartUpload)
    (list : List UploadedPart)
    (hu : lookupA st.uploads id = some upload)
    (hnames : namesStored upload list = true)
    (hfiles : sessionFilesOk st id upload = true)
    (hout : underDir (sessionDir st.uploadsDir id) upload.path = false) :
    ∃ st', completeUpload st id list = (.ok (), st') ∧
      lookupA st'.disk upload.path
        = some ⟨(sortParts list).flatMap (partBytes st.disk st.uploadsDir id),
                upload.permissions⟩ ∧
      lookupA st'.uploads id = none ∧
      sessionDir st.uploadsDir id ∉ st'.dirs ∧
      (∀ n : Int, lookupA st'.disk (partPath st.uploadsDir id n) = none) ∧
      lookupA st'.disk (metaPath st.uploadsDir id) = none := by
  have hv := validateParts_none_of_namesStored hnames
  have hsorted_files : ∀ e ∈ sortParts list,
      (lookupA st.disk (partPath st.uploadsDir id e.partNumber)).isSome = true := by
    intro e he
    have hmem : e ∈ list := (sortParts_perm list).mem_iff.mp he
    obtain ⟨sp, hsp, _⟩ := namesStored_spec hnames e hmem
    exact sessionFilesOk_spec hfiles e.partNumber sp hsp
  have hcp := copyParts_ok st.disk st.uploadsDir id (sortParts list) hsorted_files []
  rw [List.nil_append] at hcp
  refine ⟨{ st with
            uploads := eraseA st.uploads id,
            disk := removeAllDisk
              (setA st.disk upload.path
                ⟨(sortParts list).flatMap (partBytes st.disk st.uploadsDir id),
                 upload.permissions⟩)
              (sessionDir st.uploadsDir id),
            dirs := removeAllDirs (goDir upload.path :: st.dirs)
              (sessionDir st.uploadsDir id) }, ?_, ?_, ?_, ?_, ?_, ?_⟩
  · simp only [completeUpload, hu, hv, hcp, abortUpload]
  · rw [lookupA_removeAllDisk_keep _ _ _ hout, lookupA_setA_same]
  · exact lookupA_eraseA_self st.uploads id
  · exact not_mem_removeAllDirs_self _ _
  · intro n
    exact lookupA_removeAllDisk_under _ _ _ (partPath_under st.uploadsDir id n)
  · exact lookupA_removeAllDisk_under _ _ _ (metaPath_under st.uploadsDir id)

/-- The success path of `UploadPart`, fully evaluated. -/
theorem uploadPart_ok (st : MState) (now : Nat) (id : String) (n : Int)
    (data : List Nat) (upload : MultipartUpload)
    (hu : lookupA st.uploads id = some upload) (hn1 : 1 ≤ n) (hn2 : n ≤ 10000) :
    uploadPart st now id n data =
      (.ok ⟨n, md5Hex data, data.length, now⟩,
       { st with
         uploads := setA st.uploads id
           { upload with parts := setA upload.parts n ⟨n, md5Hex data, data.length, now⟩ },
         disk := setA (setA st.disk (partPath st.uploadsDir id n) ⟨data, 438⟩)
           (metaPath st.uploadsDir id)
           ⟨encodeMeta { upload with
              parts := setA upload.parts n ⟨n, md5Hex data, data.length, now⟩ }, 420⟩ }) := by
  have hcond : ¬(n < 1 ∨ n > 10000) := by omega
  simp only [uploadPart, hu, if_neg hcond]

/-! ## Claim C7 — UploadPart bounds and ETag (confirmed)

`UploadPart` rejects an unknown upload id and a part number outside
1..10000 with an error (leaving the state untouched); on success the
stored part's ETag is the lowercase-hex MD5 of the bytes it wrote to the
`part-N` file and its size is the number of bytes written.
-/

/-- C7: an out-of-range part number or unknown upload id makes
`UploadPart` fail without touching anything, and a successful
`UploadPart` stores a part whose ETag is the lowercase-hex MD5 of the
`part-N` file's bytes on disk and whose size is that file's byte count. -/
theorem uploadPart_bounds_and_etag (st : MState) (now : Nat) (id : String) (n : Int)
    (data : List Nat) :
    ((lookupA st.uploads id = none ∨ n < 1 ∨ n > 10000) →
      ∃ e, uploadPart st now id n data = (.error e, st)) ∧
    (∀ part st', uploadPart st now id n data = (.ok part, st') →
      ∃ f, lookupA st'.disk (partPath st.uploadsDir id n) = some f ∧
        part.etag = md5Hex f.content ∧ part.size = (f.content.length : Int)) := by
  constructor
  · intro h
    cases hl : lookupA st.uploads id with
    | none =>
        exact ⟨"upload not found: " ++ id, by simp [uploadPart, hl]⟩
    | some u =>
        have hcond : n < 1 ∨ n > 10000 := by
          rcases h with h | h | h
          · rw [hl] at h; exact absurd h (by simp)
          · exact Or.inl h
          · exact Or.inr h
        exact ⟨"part number must be between 1 and 10000",
          by simp [uploadPart, hl, if_pos hcond]⟩
  · intro part st' h
    cases hl : lookupA st.uploads id with
    | none => simp [uploadPart, hl] at h
    | some u =>
        by_cases hcond : n < 1 ∨ n > 10000
        · simp [uploadPart, hl, if_pos hcond] at h
        · rw [uploadPart_ok st now id n data u hl (by omega) (by omega)] at h
          rw [Prod.mk.injEq] at h
          obtain ⟨hp, hs⟩ := h
          have hp' := (Except.ok.inj hp).symm
          subst hp'
          subst hs
          refine ⟨⟨data, 438⟩, ?_, rfl, rfl⟩
          show lookupA (setA (setA st.disk (partPath st.uploadsDir id n) ⟨data, 438⟩)
            (metaPath st.uploadsDir id) _) (partPath st.uploadsDir id n) = _
          rw [lookupA_setA_other _ _ _ _ (Ne.symm (partPath_ne_metaPath st.uploadsDir id n)),
            lookupA_setA_same]

/-- C7 witness: part number 0 is rejected on the concrete session, and the
successful upload of part 1 (`Hi`) stores its MD5 ETag and size 2. -/
theorem uploadPart_bounds_and_etag_witness :
    (∃ e, uploadPart wInit 1 "sid" 0 [1] = (.error e, wInit)) ∧
    (∃ f, lookupA wUp1.disk (partPath wInit.uploadsDir "sid" 1) = some f ∧
      (md5Hex [72, 105]) = md5Hex f.content ∧ ((2 : Int) = (f.content.length : Int))) :=
  ⟨(uploadPart_bounds_and_etag wInit 1 "sid" 0 [1]).1 (Or.inr (Or.inl (by decide))),
   (uploadPart_bounds_and_etag wInit 1 "sid" 1 [72, 105]).2
     ⟨1, md5Hex [72, 105], 2, 1⟩ wUp1 rfl⟩

/-! ## Claim C1 — CompleteUpload success path (confirmed)

With a parts list naming stored parts with matching ETags, completion
writes the target file as the concatenation of the named parts in
ascending part-number order with the session's permission bits, then
removes the session directory (part files and metadata) and the
session-index entry.  (The hypotheses spell out what "upload session"
presupposes: the session is in the index, its stored parts have their
bytes on disk, and its target path does not itself lie inside the
session's own scratch directory.)
-/

/-- C1: completion with a correct parts list concatenates the named parts
in ascending part-number order into the target with the session's
permissions and removes the session directory and index entry. -/
theorem completeUpload_writes_concatenation (st : MState) (id : String)
    (upload : MultipartUpload) (list : List UploadedPart)
    (hu : lookupA st.uploads id = some upload)
    (hnames : namesStored upload list = true)
    (hfiles : sessionFilesOk st id upload = true)
    (hout : underDir (sessionDir st.uploadsDir id) upload.path = false) :
    ∃ st', completeUpload st id list = (.ok (), st') ∧
      lookupA st'.disk upload.path
        = some ⟨(sortParts list).flatMap (partBytes st.disk st.uploadsDir id),
                upload.permissions⟩ ∧
      List.Pairwise (fun a b => a.partNumber ≤ b.partNumber) (sortParts list) ∧
      List.Perm (sortParts list) list ∧
      lookupA st'.uploads id = none ∧
      sessionDir st.uploadsDir id ∉ st'.dirs ∧
      (∀ n : Int, lookupA st'.disk (partPath st.uploadsDir id n) = none) ∧
      lookupA st'.disk (metaPath st.uploadsDir id) = none := by
  obtain ⟨st', h1, h2, h3, h4, h5, h6⟩ := complete_ok st id upload list hu hnames hfiles hout
  exact ⟨st', h1, h2, sortParts_sorted list, sortParts_perm list, h3, h4, h5, h6⟩

/-- C1 witness: the theorem at the concrete two-part session, with every
hypothesis checked by evaluation. -/
theorem completeUpload_writes_concatenation_witness :
    (lookupA wUp2.uploads "sid" = some wUpload ∧
     namesStored wUpload wList = true ∧
     sessionFilesOk wUp2 "sid" wUpload = true ∧
     underDir (sessionDir wUp2.uploadsDir "sid") wUpload.path = false) ∧
    (∃ st', completeUpload wUp2 "sid" wList = (.ok (), st') ∧
      lookupA st'.disk wUpload.path
        = some ⟨(sortParts wList).flatMap (partBytes wUp2.disk wUp2.uploadsDir "sid"),
                wUpload.permissions⟩ ∧
      List.Pairwise (fun a b => a.partNumber ≤ b.partNumber) (sortParts wList) ∧
      List.Perm (sortParts wList) wList ∧
      lookupA st'.uploads "sid" = none ∧
      sessionDir wUp2.uploadsDir "sid" ∉ st'.dirs ∧
      (∀ n : Int, lookupA st'.disk (partPath wUp2.uploadsDir "sid" n) = none) ∧
      lookupA st'.disk (metaPath wUp2.uploadsDir "sid") = none) :=
  ⟨⟨by decide, by decide, by decide, by decide⟩,
   completeUpload_writes_concatenation wUp2 "sid" wUpload wList
     (by decide) (by decide) (by decide) (by decide)⟩

/-! ## Claim C10 — subsets of the stored parts complete (confirmed)

The validation loop only checks the caller's entries, so a list naming a
strict subset of the stored parts succeeds: the file concatenates only
the named parts, and the unnamed stored parts are deleted along with the
session directory.
-/

/-- C10: completing with a list that names only a strict subset of the
stored parts (matching ETags) succeeds, writes only the named parts in
ascending order, and deletes the unnamed stored parts together with the
session. -/
theorem completeUpload_subset_succeeds (st : MState) (id : String)
    (upload : MultipartUpload) (list : List UploadedPart)
    (hu : lookupA st.uploads id = some upload)
    (hnames : namesStored upload list = true)
    (hfiles : sessionFilesOk st id upload = true)
    (hout : underDir (sessionDir st.uploadsDir id) upload.path = false)
    (_hsub : ∃ kv ∈ upload.parts, ∀ e ∈ list, e.partNumber ≠ kv.1) :
    ∃ st', completeUpload st id list = (.ok (), st') ∧
      lookupA st'.disk upload.path
        = some ⟨(sortParts list).flatMap (partBytes st.disk st.uploadsDir id),
                upload.permissions⟩ ∧
      lookupA st'.uploads id = none ∧
      sessionDir st.uploadsDir id ∉ st'.dirs ∧
      (∀ kv ∈ upload.parts, (∀ e ∈ list, e.partNumber ≠ kv.1) →
        lookupA st'.disk (partPath st.uploadsDir id kv.1) = none) := by
  obtain ⟨st', h1, h2, h3, h4, h5, _⟩ := complete_ok st id upload list hu hnames hfiles hout
  exact ⟨st', h1, h2, h3, h4, fun kv _ _ => h5 kv.1⟩

/-- C10 witness: completing the two-part session with a list naming only
part 1 succeeds; part 2 is omitted from the file and its part file is
deleted with the session. -/
theorem completeUpload_subset_succeeds_witness :
    (lookupA wUp2.uploads "sid" = some wUpload ∧
     namesStored wUpload wListSub = true ∧
     sessionFilesOk wUp2 "sid" wUpload = true ∧
     underDir (sessionDir wUp2.uploadsDir "sid") wUpload.path = false ∧
     (∃ kv ∈ wUpload.parts, ∀ e ∈ wListSub, e.partNumber ≠ kv.1)) ∧
    (∃ st', completeUpload wUp2 "sid" wListSub = (.ok (), st') ∧
      lookupA st'.disk wUpload.path
        = some ⟨(sortParts wListSub).flatMap (partBytes wUp2.disk wUp2.uploadsDir "sid"),
                wUpload.permissions⟩ ∧
      lookupA st'.uploads "sid" = none ∧
      sessionDir wUp2.uploadsDir "sid" ∉ st'.dirs ∧
      (∀ kv ∈ wUpload.parts, (∀ e ∈ wListSub, e.partNumber ≠ kv.1) →
        lookupA st'.disk (partPath wUp2.uploadsDir "sid" kv.1) = none)) :=
  ⟨⟨by decide, by decide, by decide, by decide,
    ⟨(2, ⟨2, md5Hex [33], 1, 2⟩), by decide, by decide⟩⟩,
   completeUpload_subset_succeeds wUp2 "sid" wUpload wListSub
     (by decide) (by decide) (by decide) (by decide)
     ⟨(2, ⟨2, md5Hex [33], 1, 2⟩), by decide, by decide⟩⟩

/-! ## Claim C5 — bad parts list leaves the session intact (confirmed)

A list entry naming no stored part, or one whose ETag mismatches, fails
the validation loop before anything is touched: `CompleteUpload` returns
the error with the state — session index, stored parts, part files and
metadata — exactly as it was, so the session can still be listed,
completed or aborted.
-/

/-- C5: a parts list containing an entry with no stored part or a
mismatched ETag makes `CompleteUpload` fail and leaves the whole manager
state (session index, parts, files, metadata) unchanged. -/
theorem completeUpload_bad_list_keeps_session (st : MState) (id : String)
    (upload : MultipartUpload) (list : List UploadedPart)
    (hu : lookupA st.uploads id = some upload)
    (hbad : ∃ e ∈ list, ∀ sp, lookupA upload.parts e.partNumber = some sp →
      sp.etag ≠ e.etag) :
    ∃ msg, completeUpload st id list = (.error msg, st) := by
  obtain ⟨msg, hv⟩ := validateParts_some_of_bad hbad
  exact ⟨msg, by simp [completeUpload, hu, hv]⟩

/-- C5 witness: completing the concrete session with a wrong ETag for
part 2 fails and returns the state unchanged. -/
theorem completeUpload_bad_list_keeps_session_witness :
    (lookupA wUp2.uploads "sid" = some wUpload ∧
     (∃ e ∈ wListBad, ∀ sp, lookupA wUpload.parts e.partNumber = some sp →
        sp.etag ≠ e.etag)) ∧
    (∃ msg, completeUpload wUp2 "sid" wListBad = (.error msg, wUp2)) := by
  have hbad : ∃ e ∈ wListBad, ∀ sp, lookupA wUpload.parts e.partNumber = some sp →
      sp.etag ≠ e.etag := by
    refine ⟨⟨2, "deadbeef", 1, 7⟩, by decide, ?_⟩
    intro sp hsp
    have hl : lookupA wUpload.parts (2 : Int) = some ⟨2, md5Hex [33], 1, 2⟩ := by decide
    rw [hl] at hsp
    have := Option.some.inj hsp
    subst this
    decide
  exact ⟨⟨by decide, hbad⟩,
    completeUpload_bad_list_keeps_session wUp2 "sid" wUpload wListBad (by decide) hbad⟩

/-! ## Claim C6 — re-upload replaces the part wholesale (confirmed)

Uploading part N twice (bytes B1 then B2) replaces the stored
`PartRecord` entirely — part number, ETag (now the MD5 of B2), size and
upload time — and overwrites the `part-N` file with B2, so a subsequent
completion whose list names part N produces a file with B2 at the N slot.
-/

/-- C6: after uploading part `n` with bytes `b1` and then with `b2`, the
stored record for `n` is exactly the `b2` record (ETag, size and all),
the `part-n` file holds `b2`, and completing with any valid list naming
`n` yields a target file with `b2` at the `n` slot of the ascending
concatenation. -/
theorem uploadPart_twice_then_complete (st : MState) (now1 now2 : Nat) (id : String)
    (n : Int) (b1 b2 : List Nat) (upload u2 : MultipartUpload)
    (st1 st2 : MState) (p1 p2 : UploadedPart)
    (list : List UploadedPart) (e0 : UploadedPart)
    (hu : lookupA st.uploads id = some upload)
    (hn1 : 1 ≤ n) (hn2 : n ≤ 10000)
    (h1 : uploadPart st now1 id n b1 = (.ok p1, st1))
    (h2 : uploadPart st1 now2 id n b2 = (.ok p2, st2))
    (hu2 : lookupA st2.uploads id = some u2)
    (hnames : namesStored u2 list = true)
    (hfiles : sessionFilesOk st2 id u2 = true)
    (hout : underDir (sessionDir st2.uploadsDir id) u2.path = false)
    (hmem : e0 ∈ list) (he0 : e0.partNumber = n) :
    p2 = ⟨n, md5Hex b2, b2.length, now2⟩ ∧
    lookupA u2.parts n = some ⟨n, md5Hex b2, b2.length, now2⟩ ∧
    lookupA st2.disk (partPath st2.uploadsDir id n) = some ⟨b2, 438⟩ ∧
    (∃ st3 pre post, completeUpload st2 id list = (.ok (), st3) ∧
      sortParts list = pre ++ e0 :: post ∧
      lookupA st3.disk u2.path =
        some ⟨pre.flatMap (partBytes st2.disk st2.uploadsDir id) ++ b2
                ++ post.flatMap (partBytes st2.disk st2.uploadsDir id),
              u2.permissions⟩) := by
  rw [uploadPart_ok st now1 id n b1 upload hu hn1 hn2, Prod.mk.injEq] at h1
  obtain ⟨hp1, hs1⟩ := h1
  subst hs1
  rw [uploadPart_ok _ now2 id n b2
      { upload with parts := setA upload.parts n ⟨n, md5Hex b1, b1.length, now1⟩ }
      (lookupA_setA_same _ _ _) hn1 hn2, Prod.mk.injEq] at h2
  obtain ⟨hp2, hs2⟩ := h2
  have hp2' := (Except.ok.inj hp2).symm
  subst hp2'
  subst hs2
  rw [show lookupA (setA (setA st.uploads id
        { upload with parts := setA upload.parts n ⟨n, md5Hex b1, b1.length, now1⟩ }) id
        { upload with parts := (setA (setA upload.parts n ⟨n, md5Hex b1, b1.length, now1⟩) n
            ⟨n, md5Hex b2, b2.length, now2⟩) }) id
      = some { upload with
          parts := (setA (setA upload.parts n ⟨n, md5Hex b1, b1.length, now1⟩) n
            ⟨n, md5Hex b2, b2.length, now2⟩) } from lookupA_setA_same _ _ _] at hu2
  have hu2' := (Option.some.inj hu2).symm
  subst hu2'
  have hdisk : lookupA (setA (setA (setA (setA st.disk
        (partPath st.uploadsDir id n) ⟨b1, 438⟩)
        (metaPath st.uploadsDir id)
        ⟨encodeMeta { upload with
            parts := setA upload.parts n ⟨n, md5Hex b1, b1.length, now1⟩ }, 420⟩)
        (partPath st.uploadsDir id n) ⟨b2, 438⟩)
        (metaPath st.uploadsDir id)
        ⟨encodeMeta { upload with
            parts := (setA (setA upload.parts n ⟨n, md5Hex b1, b1.length, now1⟩) n
              ⟨n, md5Hex b2, b2.length, now2⟩) }, 420⟩)
      (partPath st.uploadsDir id n) = some ⟨b2, 438⟩ := by
    rw [lookupA_setA_other _ _ _ _ (Ne.symm (partPath_ne_metaPath _ _ n)),
      lookupA_setA_same]
  refine ⟨rfl, lookupA_setA_same _ _ _, hdisk, ?_⟩
  obtain ⟨st3, hok, hfile, hups, hdirs, hparts, hmeta⟩ :=
    complete_ok _ id _ list (lookupA_setA_same _ _ _) hnames hfiles hout
  have hmem' : e0 ∈ sortParts list := (sortParts_perm list).mem_iff.mpr hmem
  obtain ⟨pre, post, hsplit⟩ := List.append_of_mem hmem'
  rw [hsplit, List.flatMap_append, List.flatMap_cons] at hfile
  dsimp only at hfile ⊢
  have hfe : ∀ ee : UploadedPart, ee.partNumber = n →
      partBytes (setA (setA (setA (setA st.disk
          (partPath st.uploadsDir id n) ⟨b1, 438⟩)
          (metaPath st.uploadsDir id)
          ⟨encodeMeta { upload with
              parts := setA upload.parts n ⟨n, md5Hex b1, b1.length, now1⟩ }, 420⟩)
          (partPath st.uploadsDir id n) ⟨b2, 438⟩)
          (metaPath st.uploadsDir id)
          ⟨encodeMeta { upload with
              parts := (setA (setA upload.parts n ⟨n, md5Hex b1, b1.length, now1⟩) n
                ⟨n, md5Hex b2, b2.length, now2⟩) }, 420⟩)
        st.uploadsDir id ee = b2 := by
    intro ee hee
    simp only [partBytes, hee, hdisk]
  rw [hfe e0 he0, ← List.append_assoc] at hfile
  exact ⟨st3, pre, post, hok, hsplit, hfile⟩

/-- C6 witness: part 1 uploaded as `Hi` then re-uploaded as `\n`; the
stored record and file hold the second bytes, and completing with a list
naming part 1 puts them at its slot. -/
theorem uploadPart_twice_then_complete_witness :
    (⟨1, md5Hex [10], 1, 9⟩ : UploadedPart) = ⟨1, md5Hex [10], 1, 9⟩ ∧
    lookupA wUploadRe.parts 1 = some ⟨1, md5Hex [10], 1, 9⟩ ∧
    lookupA wRe2.disk (partPath wRe2.uploadsDir "sid" 1) = some ⟨[10], 438⟩ ∧
    (∃ st3 pre post, completeUpload wRe2 "sid" wListRe = (.ok (), st3) ∧
      sortParts wListRe = pre ++ (⟨1, md5Hex [10], 1, 5⟩ : UploadedPart) :: post ∧
      lookupA st3.disk wUploadRe.path =
        some ⟨pre.flatMap (partBytes wRe2.disk wRe2.uploadsDir "sid") ++ [10]
                ++ post.flatMap (partBytes wRe2.disk wRe2.uploadsDir "sid"),
              wUploadRe.permissions⟩) :=
  uploadPart_twice_then_complete wInit 1 9 "sid" 1 [72, 105] [10] wUpload0 wUploadRe
    wUp1 wRe2 ⟨1, md5Hex [72, 105], 2, 1⟩ ⟨1, md5Hex [10], 1, 9⟩ wListRe
    ⟨1, md5Hex [10], 1, 5⟩ (by decide) (by decide) (by decide) rfl rfl
    (by decide) (by decide) (by decide) (by decide) (by decide) rfl

end Sandbox

/-! ## Validation of the embedded library functions

Known-answer checks: MD5 test vectors (RFC 1321 / `crypto/md5`) and the
behavior of the embedded `filepath` functions on inputs checked against
Go's own implementation.
-/

theorem md5Hex_empty_vector : Sandbox.md5Hex [] = "d41d8cd98f00b204e9800998ecf8427e" := by
  decide

theorem md5Hex_abc_vector :
    Sandbox.md5Hex [97, 98, 99] = "900150983cd24fb0d6963f7d28e17f72" := by
  decide

theorem md5Hex_hi_vector :
    Sandbox.md5Hex [104, 105] = "49f68a5c8493ec2c0bf489821c21fc3b" := by
  decide

theorem goClean_examples :
    Sandbox.goClean "a//b/./../c/" = "a/c" ∧ Sandbox.goClean "/root/.." = "/" ∧
    Sandbox.goClean "." = "." ∧ Sandbox.goClean "" = "." := by
  refine ⟨rfl, rfl, rfl, rfl⟩

theorem goRel_examples :
    Sandbox.goRel "/root" "/" = .ok ".." ∧ Sandbox.goRel "/a/b" "/a/c" = .ok "../c" ∧
    Sandbox.goRel "/a" "/a/b/c" = .ok "b/c" ∧ Sandbox.goRel "a" "b/c" = .ok "../b/c" := by
  refine ⟨rfl, rfl, rfl, rfl⟩

theorem getAbsolutePath_examples :
    Sandbox.getAbsolutePath "/root" "/root" "../x"
      = .error "path is outside of the root directory" ∧
    Sandbox.getAbsolutePath "/root" "/root" "a/../b" = .ok "/root/b" ∧
    Sandbox.getAbsolutePath "/root" "/root" "/etc/passwd" = .ok "/etc/passwd" := by
  refine ⟨rfl, rfl, rfl⟩
